import Mathlib

/-!
Verification of the per-guild playback engine of `music.py` (class `MusicPlayer`)
against its natural-language specification.

The Python source is shallowly embedded: pure helpers become Lean functions,
the stateful player loop becomes an explicit small-step machine on a state
record (`MState`), driven by an action trace that interleaves the external
operations (`enqueue`, `skip`, `set_volume`) with the loop task's own
progress between its `await` points (`loopStep`).  External queries to the
voice transport (did FFmpeg start ok, is the stream still playing after the
grace sleep, did the stream end) are resolved by an oracle record
(`StepEnv`) attached to each loop step.  Python floats that only ever flow
through `max`/`min` (the volume path performs no float arithmetic) are
modelled exactly by rationals.
-/

namespace An29

/-- Shallow embedding of the `Track` dataclass of `music.py`.  The
`requester` (a `discord.Member`) is display-only and embedded as an opaque
string identity. -/
structure Track where
  title : String
  url : String
  stream_url : String
  duration : Option Nat := none
  requester : Option String := none
  deriving DecidableEq, Repr

/-- Embedding of `getattr(vc.channel, "bitrate", 128_000) or 128_000`
(line 233): a missing bitrate attribute defaults to 128000 bps, and
Python's `or` also replaces a falsy (zero) bitrate by 128000. -/
def channelBps (bitrate : Option Nat) : Nat :=
  match bitrate with
  | none => 128000
  | some 0 => 128000
  | some b => b

/-- Embedding of `cap_kbps = max(64, min(256, channel_bps // 1000))`
(line 234). -/
def cap_kbps (channel_bps : Nat) : Nat :=
  max 64 (min 256 (channel_bps / 1000))

/-- Embedding of `target_kbps = 192 if cap_kbps >= 192 else cap_kbps`
(line 235). -/
def target_kbps (channel_bps : Nat) : Nat :=
  if 192 ≤ cap_kbps channel_bps then 192 else cap_kbps channel_bps

/-- Embedding of the body of `MusicPlayer.set_volume` (line 149):
`max(0.0, min(1.5, vol))`. -/
def clampVolume (v : ℚ) : ℚ :=
  max 0 (min (3/2) v)

/-- Embedding of `self.volume = 0.35` from `MusicPlayer.__init__`
(line 108). -/
def defaultVolume : ℚ := 7/20

/-- Embedding of `self.idle_disconnect_after = 900` from
`MusicPlayer.__init__` (line 109). -/
def idle_disconnect_after : Nat := 900

/-- Embedding of `ffmpeg_volume_filter` (lines 33-36).  The function
clamps to `[0, 1.5]` and emits an FFmpeg `volume=v` filter unless `v` is
within `1e-3` of unity, in which case it emits the empty string (no
filter).  The string rendering is abstracted to the numeric filter value:
`some v` is the filter `-filter:a "volume=v"`, `none` is the empty
string. -/
def ffmpeg_volume_filter (vol : ℚ) : Option ℚ :=
  let v := max 0 (min (3/2) vol)
  if 1/1000 < |v - 1| then some v else none

/-- Embedding of the PCM fallback gain `float(min(self.volume, 1.0))`
passed to `PCMVolumeTransformer` in `start_pcm` (line 260). -/
def pcmGain (vol : ℚ) : ℚ :=
  min vol 1

/-- An audio stream handed to `vc.play`, with the parameters the loop bakes
in at start time: `FFmpegOpusAudio` carries the target bitrate and the
optional encoder-side volume filter (lines 240-245); the PCM fallback
carries the post-decode gain of its `PCMVolumeTransformer` (line 260). -/
inductive StreamKind where
  | opus (kbps : Nat) (filter : Option ℚ)
  | pcm (gain : ℚ)
  deriving DecidableEq, Repr

/-- Program counter of the loop task of `_player_loop`, one constructor per
`await` point at which other tasks can interleave: `blocked` is the loop
suspended in `await self.queue.get()` (line 216, with `next_event.clear()`
of line 215 already executed — clear and get run back to back with no
suspension between them); `grace` is `await asyncio.sleep(2.0)` (line 276)
with stream `s` started for track `t`; `waiting` is the
`asyncio.wait(..., FIRST_COMPLETED)` race of line 290. -/
inductive PC where
  | blocked
  | grace (t : Track) (s : StreamKind)
  | waiting (t : Track) (s : StreamKind)
  deriving DecidableEq, Repr

/-- State of one guild's `MusicPlayer` together with the transport facts
the loop queries: `queue`/`nextEv`/`current`/`volume` are the fields of the
Python object (`self.queue`, `self.next_event`, `self.current`,
`self.volume`); `doneEv` is the per-iteration `done_event` set by
`after_play`; `playing` is `vc.is_playing()`; `idleArmed` records whether
an idle-disconnect timer task is pending. -/
structure MState where
  pc : PC
  queue : List Track
  nextEv : Bool
  doneEv : Bool
  playing : Bool
  current : Option Track
  idleArmed : Bool
  volume : ℚ
  deriving DecidableEq, Repr

/-- Oracle for the external queries one loop step performs: was the voice
client connected at dequeue, did the `FFmpegOpusAudio` / `FFmpegPCMAudio`
constructors plus `vc.play` succeed, did the stream die during the
2-second grace sleep, did the second PCM start succeed, did the stream
end during this `waiting` step, and the channel's nominal bitrate. -/
structure StepEnv where
  connected : Bool
  opusOk : Bool
  pcmOk : Bool
  diedInGrace : Bool
  pcmOk2 : Bool
  streamEnds : Bool
  chanBitrate : Option Nat
  deriving DecidableEq, Repr

/-- Observable events of a run, mirroring the print statements of
`music.py`: `enqueued` (line 114), `started` ("Spiller nå", lines 246/261),
`droppedNoVoice` (the silent drop of lines 220-223), `droppedStartFailed`
("Ingen avspilling lyktes" / "PCM fallback feilet", lines 270/282),
`finishedNormal` ("Ferdig med sangen", line 299), `stoppedBySkip`
("Skippet sangen", line 297). -/
inductive Obs where
  | enqueued (t : Track)
  | started (t : Track) (s : StreamKind)
  | droppedNoVoice (t : Track)
  | droppedStartFailed (t : Track)
  | finishedNormal (t : Track)
  | stoppedBySkip (t : Track)
  deriving DecidableEq, Repr

/-- Actions that can be scheduled against one guild's engine: the
front-end operations `skip` (`MusicPlayer.skip`), `enqueue`
(`MusicPlayer.enqueue`) and `set_volume` (`MusicPlayer.set_volume`), and
one resumption of the loop task at its current `await` point
(`loopStep`). -/
inductive MAct where
  | skip
  | enqueue (t : Track)
  | setVolume (v : ℚ)
  | loopStep (e : StepEnv)

/-- The probe-failure branch of lines 277-285: the stream is not playing
after the grace sleep, so (after the no-op stop guard of lines 279-280,
which fires only when playing or paused) `start_pcm` is retried; on
success the loop falls through to the end-or-skip wait with the new PCM
stream, on failure the track is dropped, `current` is cleared, the idle
timer is re-armed and the loop continues (`continue` returns to the loop
top, whose `next_event.clear()` also clears a pending skip signal).
Note `done_event` is NOT re-created here, so a `doneEv` already set by the
dead primary stream survives into the wait (a faithful quirk of the
source). -/
def probeFallback (s : MState) (t : Track) (e : StepEnv) : MState × List Obs :=
  if e.pcmOk2 then
    ({ s with playing := true, pc := PC.waiting t (StreamKind.pcm (pcmGain s.volume)) },
     [Obs.started t (StreamKind.pcm (pcmGain s.volume))])
  else
    ({ s with current := none, idleArmed := true, nextEv := false, pc := PC.blocked },
     [Obs.droppedStartFailed t])

/-- One resumption of the loop task of `_player_loop` (lines 214-302).
From `blocked`: if the queue is empty the task stays suspended in
`queue.get()`; otherwise it atomically (no `await` between lines 216 and
276) dequeues the head, sets `current`, cancels the idle timer, checks
connectivity (dropping the track and re-arming the timer when absent,
lines 219-223), creates a fresh `done_event`, and attempts `start_opus`
then `start_pcm` (lines 268-273); `vc.play` raises `ClientException` when
audio is already playing, so a start can only succeed when `playing` is
false.  From `grace`: the 2-second sleep ends (the stream may have died
during it, firing `after_play`), and the `vc.is_playing()` probe of line
277 either falls through to the wait or enters `probeFallback`.  From
`waiting`: the first-of-two race of line 290 resolves as soon as
`next_event` or `done_event` is set (the skip branch is taken whenever the
skip waiter completed, line 294), else the stream may end now via the
oracle; on resolution `current` is cleared, the idle timer re-armed, and
the loop returns to the top, clearing `next_event`. -/
def step (a : MAct) (s : MState) : MState × List Obs :=
  match a with
  | MAct.skip =>
      -- `skip` (lines 117-121): stop the stream if one is playing (which
      -- fires `after_play`, setting `done_event`), then set `next_event`.
      if s.playing then
        ({ s with playing := false, doneEv := true, nextEv := true }, [])
      else
        ({ s with nextEv := true }, [])
  | MAct.enqueue t =>
      -- `enqueue` (lines 112-115): FIFO append; `ensure_task` is modelled
      -- separately by `TaskState` (the machine assumes the loop task runs).
      ({ s with queue := s.queue ++ [t] }, [Obs.enqueued t])
  | MAct.setVolume v =>
      -- `set_volume` (lines 147-149).
      ({ s with volume := clampVolume v }, [])
  | MAct.loopStep e =>
      match s.pc with
      | PC.blocked =>
          match s.queue with
          | [] => (s, [])
          | t :: rest =>
              if e.connected then
                if e.opusOk && !s.playing then
                  ({ s with queue := rest, current := some t, doneEv := false,
                            playing := true, idleArmed := false,
                            pc := PC.grace t (StreamKind.opus
                              (target_kbps (channelBps e.chanBitrate))
                              (ffmpeg_volume_filter s.volume)) },
                   [Obs.started t (StreamKind.opus
                      (target_kbps (channelBps e.chanBitrate))
                      (ffmpeg_volume_filter s.volume))])
                else if e.pcmOk && !s.playing then
                  ({ s with queue := rest, current := some t, doneEv := false,
                            playing := true, idleArmed := false,
                            pc := PC.grace t (StreamKind.pcm (pcmGain s.volume)) },
                   [Obs.started t (StreamKind.pcm (pcmGain s.volume))])
                else
                  ({ s with queue := rest, current := none, doneEv := false,
                            nextEv := false, idleArmed := true, pc := PC.blocked },
                   [Obs.droppedStartFailed t])
              else
                ({ s with queue := rest, current := none, nextEv := false,
                          idleArmed := true, pc := PC.blocked },
                 [Obs.droppedNoVoice t])
      | PC.grace t strm =>
          if s.playing then
            if e.diedInGrace then
              probeFallback { s with playing := false, doneEv := true } t e
            else
              ({ s with pc := PC.waiting t strm }, [])
          else
            probeFallback s t e
      | PC.waiting t _ =>
          if s.nextEv then
            ({ s with playing := false, doneEv := true, current := none,
                      idleArmed := true, nextEv := false, pc := PC.blocked },
             [Obs.stoppedBySkip t])
          else if s.doneEv then
            ({ s with current := none, idleArmed := true, nextEv := false,
                      pc := PC.blocked },
             [Obs.finishedNormal t])
          else if s.playing && e.streamEnds then
            ({ s with playing := false, doneEv := true, current := none,
                      idleArmed := true, nextEv := false, pc := PC.blocked },
             [Obs.finishedNormal t])
          else
            (s, [])

/-- Run a scheduled trace of actions, accumulating the observations. -/
def run : List MAct → MState → MState × List Obs
  | [], s => (s, [])
  | a :: as, s =>
      let r := step a s
      let r2 := run as r.1
      (r2.1, r.2 ++ r2.2)

/-- The engine's idle configuration: loop suspended in `queue.get()` with
queue `q`, `next_event` clear, nothing playing, `current` empty, idle
timer armed (as after `start_idle_timer()` on line 212 or 302), stored
volume `v`.  `d` is the leftover value of the previous iteration's
`done_event` (replaced at the next dequeue). -/
def mkIdle (q : List Track) (d : Bool) (v : ℚ) : MState :=
  ⟨PC.blocked, q, false, d, false, none, true, v⟩

/-- A benign transport: connected, all starts succeed, the stream survives
the grace period and eventually signals completion, on a channel with the
default 128 kbps nominal bitrate. -/
def goodEnv : StepEnv :=
  ⟨true, true, true, false, true, true, some 128000⟩

/-- The stream a benign iteration starts: primary Opus at the 128 kbps
target with the encoder-side volume filter for stored volume `v`. -/
def goodStream (v : ℚ) : StreamKind :=
  StreamKind.opus 128 (ffmpeg_volume_filter v)

/-- Scheduler trace that lets the loop task run to completion on a benign
transport: three resumptions per queued track (dequeue-and-start, grace
probe, end-of-stream). -/
def playSchedule : List Track → List MAct
  | [] => []
  | _ :: ts => MAct.loopStep goodEnv :: MAct.loopStep goodEnv ::
      MAct.loopStep goodEnv :: playSchedule ts

/-! ### Loop-task registry (`ensure_task`, lines 151-153) -/

/-- Bookkeeping for the loop tasks ever spawned for one guild: `tasks` has
one alive-flag per spawned task (index = spawn order), `handle` is
`self.player_task` as the index of the last spawned task (`none` before
the first spawn). -/
structure TaskState where
  tasks : List Bool
  handle : Option Nat
  deriving DecidableEq, Repr

/-- Embedding of the guard
`self.player_task is None or self.player_task.done()` (line 152): true when
no task was ever spawned or the tracked task is no longer alive. -/
def taskAbsentOrDone (s : TaskState) : Bool :=
  match s.handle with
  | none => true
  | some i => !(s.tasks.getD i false)

/-- Embedding of `MusicPlayer.ensure_task` (lines 151-153): spawn a fresh
loop task (`asyncio.create_task`) and store its handle only when the guard
holds; otherwise do nothing.  The function is synchronous (no `await`
between guard and spawn), so it is a single atomic step. -/
def ensure_task (s : TaskState) : TaskState :=
  if taskAbsentOrDone s then
    { tasks := s.tasks ++ [true], handle := some s.tasks.length }
  else s

/-- Events affecting the task registry: `ensure` is a call of
`ensure_task` (from `enqueue`, line 115), `taskEnds i` is loop task `i`
terminating (only possible through cancellation or an escaped
exception). -/
inductive TAct where
  | ensure
  | taskEnds (i : Nat)

/-- One registry event. -/
def tstep : TAct → TaskState → TaskState
  | TAct.ensure, s => ensure_task s
  | TAct.taskEnds i, s => { s with tasks := s.tasks.set i false }

/-- Run a sequence of registry events. -/
def trun : List TAct → TaskState → TaskState
  | [], s => s
  | a :: as, s => trun as (tstep a s)

/-- Registry state of a freshly constructed `MusicPlayer`
(`self.player_task = None`, line 105). -/
def initTasks : TaskState := ⟨[], none⟩

/-! ### `stop` (lines 123-135) -/

/-- The state `stop` reads and writes: the queue, the skip event, and the
voice client (`self._voice` may be absent, connected or not, with a stream
playing or not). -/
structure StopState where
  queue : List Track
  nextEv : Bool
  vcPresent : Bool
  vcConnected : Bool
  playing : Bool
  deriving DecidableEq, Repr

/-- Embedding of the drain loop of lines 124-128:
`while not self.queue.empty(): self.queue.get_nowait()`, discarding each
item. -/
def drainAll : List Track → List Track
  | [] => []
  | _ :: rest => drainAll rest

/-- Embedding of `MusicPlayer.stop` (lines 123-135): drain the queue, set
`next_event`, and if a voice client is connected, stop it and — only when
`disconnect` is true — disconnect it.  The second component records
whether `vc.disconnect` was actually called. -/
def stopOp (disconnect : Bool) (s : StopState) : StopState × Bool :=
  let s1 := { s with queue := drainAll s.queue, nextEv := true }
  if s1.vcPresent && s1.vcConnected then
    let s2 := { s1 with playing := false }
    if disconnect then ({ s2 with vcConnected := false }, true) else (s2, false)
  else (s1, false)

/-! ### `connect` (lines 160-183) -/

/-- What `connect` did to the transport: returned the existing client
without any request, moved it, or issued a fresh join. -/
inductive JoinAction where
  | alreadyConnected
  | move
  | join
  deriving DecidableEq, Repr

/-- The connection state `connect` reads: whether `self._voice` exists,
which channel it is on, and whether it is connected. -/
structure ConnState where
  vcPresent : Bool
  vcChannel : Option Nat
  vcConnected : Bool
  deriving DecidableEq, Repr

/-- Number of handshake polls: `for _ in range(15)` (line 175). -/
def pollCount : Nat := 15

/-- Poll interval: `await asyncio.sleep(0.2)` (line 176), in
milliseconds. -/
def pollIntervalMs : Nat := 200

/-- Embedding of `MusicPlayer.connect` (lines 160-183).  `readyAt i` is
the oracle for `vc.is_connected()` at the `i`-th poll (`i = 1..15`); the
loop breaks at the first successful poll, and the final check of line 180
re-reads `is_connected` at the moment the loop exited, so the call
succeeds exactly when some poll within the bounded wait saw the session
connected.  The second component is `true` when the function returns the
voice client and `false` when it raises the handshake-failure
`RuntimeError` (line 181). -/
def connect (s : ConnState) (target : Nat) (readyAt : Nat → Bool) : JoinAction × Bool :=
  if s.vcPresent && (s.vcChannel == some target) && s.vcConnected then
    (JoinAction.alreadyConnected, true)
  else if s.vcPresent && s.vcConnected then
    (JoinAction.move, (List.range pollCount).any (fun i => readyAt (i + 1)))
  else
    (JoinAction.join, (List.range pollCount).any (fun i => readyAt (i + 1)))

/-! ### Idle-disconnect timer (`_idle_disconnect_task`, lines 304-314) -/

/-- Embedding of the fire-time body of `_idle_disconnect_task` (lines
308-312), after the `asyncio.sleep(self.idle_disconnect_after)` has
completed without cancellation: returns whether `vc.disconnect` is
called — only when `current` is empty, the queue is empty, a voice client
exists and it is connected. -/
def idleFires (current : Option Track) (queue : List Track)
    (vcPresent vcConnected : Bool) : Bool :=
  if current.isNone && queue.isEmpty then
    vcPresent && vcConnected
  else
    false

/-! ### Concrete sample data (used by witnesses and counterexamples) -/

/-- A sample resolved track. -/
def trackA : Track :=
  ⟨"Track A", "https://example.test/a", "https://cdn.test/a", some 180, some "user1"⟩

/-- A second sample resolved track. -/
def trackB : Track :=
  ⟨"Track B", "https://example.test/b", "https://cdn.test/b", some 200, none⟩

/-- Transport oracle where the Opus start is rejected but the PCM start
succeeds. -/
def envOpusRejected : StepEnv :=
  ⟨true, false, true, false, true, true, some 128000⟩

/-- Transport oracle where both the Opus start and the PCM start are
rejected. -/
def envBothFail : StepEnv :=
  ⟨true, false, false, false, false, true, some 128000⟩

/-- Transport oracle where the Opus stream starts but dies during the
2-second grace sleep, and the PCM restart is rejected. -/
def envDiedInGrace : StepEnv :=
  ⟨true, true, true, true, false, true, some 128000⟩

/-- The interleaving that leaks a stale skip: the loop is idle (suspended
in `queue.get()` with `next_event` already cleared), `skip()` is called,
then a track is enqueued and the loop runs on a benign transport. -/
def skipLeakTrace : List MAct :=
  [MAct.skip, MAct.enqueue trackA, MAct.loopStep goodEnv, MAct.loopStep goodEnv,
   MAct.loopStep goodEnv]

/-! ### Generic run lemmas -/

theorem run_append (as bs : List MAct) (s : MState) :
    run (as ++ bs) s
      = ((run bs (run as s).1).1, (run as s).2 ++ (run bs (run as s).1).2) := by
  induction as generalizing s with
  | nil => simp [run]
  | cons a as ih =>
      simp only [List.cons_append, run, List.append_eq]
      rw [ih]
      simp [List.append_assoc]

theorem run_enqueues (ts : List Track) (s : MState) :
    run (ts.map MAct.enqueue) s
      = ({ s with queue := s.queue ++ ts }, ts.map Obs.enqueued) := by
  induction ts generalizing s with
  | nil => simp [run]
  | cons t ts ih =>
      simp only [List.map_cons, run, step, ih]
      simp [List.append_assoc]

/-- One benign playback cycle: from idle with track `t` at the head of the
queue, three loop resumptions dequeue `t`, start the primary stream,
survive the grace probe, and finish normally, returning to idle with the
rest of the queue. -/
theorem run_cycle (t : Track) (rest : List Track) (d : Bool) (v : ℚ) :
    run [MAct.loopStep goodEnv, MAct.loopStep goodEnv, MAct.loopStep goodEnv]
      (mkIdle (t :: rest) d v)
    = (mkIdle rest true v, [Obs.started t (goodStream v), Obs.finishedNormal t]) := rfl

theorem run_playSchedule (ts : List Track) (d : Bool) (v : ℚ) :
    run (playSchedule ts) (mkIdle ts d v)
      = (mkIdle [] (if ts.isEmpty then d else true) v,
         ts.flatMap (fun t => [Obs.started t (goodStream v), Obs.finishedNormal t])) := by
  induction ts generalizing d with
  | nil => simp [playSchedule, run]
  | cons t ts ih =>
      have hsplit : playSchedule (t :: ts)
          = [MAct.loopStep goodEnv, MAct.loopStep goodEnv, MAct.loopStep goodEnv]
            ++ playSchedule ts := rfl
      rw [hsplit, run_append, run_cycle, ih true]
      cases ts <;> simp

theorem playSchedule_eq_replicate (ts : List Track) :
    playSchedule ts = List.replicate (3 * ts.length) (MAct.loopStep goodEnv) := by
  induction ts with
  | nil => rfl
  | cons t ts ih =>
      have h3 : 3 * (t :: ts).length = 3 * ts.length + 3 := by
        simp [List.length_cons, Nat.mul_succ]
      rw [playSchedule, ih, h3]
      rw [show 3 * ts.length + 3 = 3 + 3 * ts.length from Nat.add_comm _ _,
        List.replicate_add]
      rfl

/-! ### Helper lemmas -/

theorem drainAll_eq_nil (q : List Track) : drainAll q = [] := by
  induction q with
  | nil => rfl
  | cons t rest ih => simpa [drainAll] using ih

theorem getD_set_self_false (l : List Bool) (i : Nat) :
    (l.set i false).getD i false = false := by
  rcases Nat.lt_or_ge i l.length with h | h
  · simp [List.getD_eq_getElem?_getD, List.getElem?_set_self, h]
  · rw [List.set_eq_of_length_le h]
    simp [List.getD_eq_getElem?_getD, List.getElem?_eq_none h]

theorem tstep_alive_handle (a : TAct) (s : TaskState)
    (h : ∀ k, s.tasks.getD k false = true → s.handle = some k) :
    ∀ k, (tstep a s).tasks.getD k false = true → (tstep a s).handle = some k := by
  intro k hk
  cases a with
  | ensure =>
      simp only [tstep, ensure_task] at hk ⊢
      by_cases hg : taskAbsentOrDone s = true
      · rw [if_pos hg] at hk ⊢
        rcases Nat.lt_or_ge k s.tasks.length with hlt | hge
        · exfalso
          rw [List.getD_eq_getElem?_getD, List.getElem?_append_left hlt,
            ← List.getD_eq_getElem?_getD] at hk
          have hh := h k hk
          unfold taskAbsentOrDone at hg
          rw [hh] at hg
          rw [List.getD_eq_getElem?_getD] at hk
          simp [hk] at hg
        · rcases Nat.eq_or_lt_of_le hge with heq | hlt2
          · simp [← heq]
          · exfalso
            rw [List.getD_eq_getElem?_getD, List.getElem?_append_right hge] at hk
            have hnone : ([true] : List Bool)[k - s.tasks.length]? = none :=
              List.getElem?_eq_none (by simp; omega)
            rw [hnone] at hk
            simp at hk
      · rw [if_neg hg] at hk ⊢
        exact h k hk
  | taskEnds i =>
      simp only [tstep] at hk ⊢
      by_cases hki : k = i
      · exfalso
        rw [hki, getD_set_self_false] at hk
        simp at hk
      · rw [List.getD_eq_getElem?_getD,
          List.getElem?_set_ne (fun he => hki he.symm),
          ← List.getD_eq_getElem?_getD] at hk
        exact h k hk

theorem trun_alive_handle (acts : List TAct) (s : TaskState)
    (h : ∀ k, s.tasks.getD k false = true → s.handle = some k) :
    ∀ k, (trun acts s).tasks.getD k false = true → (trun acts s).handle = some k := by
  induction acts generalizing s with
  | nil => exact h
  | cons a as ih => exact ih (tstep a s) (tstep_alive_handle a s h)

theorem clampVolume_eq_min_max (v : ℚ) : clampVolume v = min (max v 0) (3/2) := by
  unfold clampVolume
  rcases le_total v 0 with h0 | h0
  · have hv32 : v ≤ 3/2 := le_trans h0 (by norm_num)
    rw [min_eq_right hv32, max_eq_left h0, max_eq_right h0,
      min_eq_left (by norm_num : (0:ℚ) ≤ 3/2)]
  · rcases le_total v (3/2) with h32 | h32
    · rw [min_eq_right h32, max_eq_right h0, max_eq_left h0, min_eq_left h32]
    · rw [min_eq_left h32, max_eq_right (by norm_num : (0:ℚ) ≤ 3/2),
        max_eq_left h0, min_eq_right h32]

/-! ### Claim theorems -/

/-- C1: for every sequence of `enqueue` calls into one guild's engine,
absent `skip` and `stop`, the loop pops the tracks from the queue one at a
time and plays them in exactly the order they were pushed, with no two
playback attempts overlapping: the observation trace of a full run is the
enqueue events followed by, for each track in push order, its `started`
event immediately followed by its own `finishedNormal` event (so a track's
playback attempt begins only after the previous track's attempt has
ended).  The second conjunct shows the schedule used is nothing but
letting the single loop task run. -/
theorem enqueue_fifo_play_order (ts : List Track) (d : Bool) (v : ℚ) :
    (run (ts.map MAct.enqueue ++ playSchedule ts) (mkIdle [] d v)).2
      = ts.map Obs.enqueued
        ++ ts.flatMap (fun t => [Obs.started t (goodStream v), Obs.finishedNormal t])
    ∧ playSchedule ts = List.replicate (3 * ts.length) (MAct.loopStep goodEnv) := by
  refine ⟨?_, playSchedule_eq_replicate ts⟩
  rw [run_append, run_enqueues]
  have h1 : ({ mkIdle [] d v with queue := (mkIdle [] d v).queue ++ ts }) = mkIdle ts d v := by
    simp [mkIdle]
  rw [h1, run_playSchedule]

/-- C4: for every destination-channel nominal bitrate (in bps; a missing
or zero bitrate defaults to 128000), the computed primary encode bitrate
in kbps equals `min(192, max(64, min(256, b/1000)))`; in particular
96000 bps yields 96 and 320000 bps yields 192. -/
theorem bitrate_clamp_formula (b : Option Nat) :
    target_kbps (channelBps b) = min 192 (max 64 (min 256 (channelBps b / 1000)))
    ∧ target_kbps (channelBps (some 96000)) = 96
    ∧ target_kbps (channelBps (some 320000)) = 192
    ∧ channelBps none = 128000
    ∧ channelBps (some 0) = 128000 := by
  refine ⟨?_, rfl, rfl, rfl, rfl⟩
  rw [show max 64 (min 256 (channelBps b / 1000)) = cap_kbps (channelBps b) from rfl,
    Nat.min_def]
  rfl

/-- C5: at most one live player-loop task ever exists per guild.
`ensure_task` spawns a fresh loop task only when no task was ever spawned
or the tracked task is done, so along any interleaving of `ensure_task`
calls and task terminations starting from a fresh `MusicPlayer`, any two
alive task indices coincide. -/
theorem at_most_one_player_task (acts : List TAct) (i j : Nat)
    (hi : (trun acts initTasks).tasks.getD i false = true)
    (hj : (trun acts initTasks).tasks.getD j false = true) :
    i = j := by
  have hInv := trun_alive_handle acts initTasks (by intro k hk; simp [initTasks] at hk)
  have h1 := hInv i hi
  have h2 := hInv j hj
  rw [h1] at h2
  exact Option.some.inj h2

/-- Witness for C5 at a concrete trace: spawn, let the task die, respawn;
the respawned task (index 1) is alive, and the theorem applies to it. -/
theorem at_most_one_player_task_witness :
    (trun [TAct.ensure, TAct.taskEnds 0, TAct.ensure] initTasks).tasks.getD 1 false = true
    ∧ 1 = 1 :=
  ⟨by decide,
   at_most_one_player_task [TAct.ensure, TAct.taskEnds 0, TAct.ensure] 1 1
     (by decide) (by decide)⟩

/-- C6: `stop(disconnect)` empties the queue (every queued item removed,
none duplicated — the drained queue is exactly `[]`), raises the skip
signal, stops an active stream exactly when a voice client is connected,
and calls `vc.disconnect` if and only if `disconnect` is true and a
connected voice client exists.  The model is sequential: the drain uses
only the non-blocking `get_nowait`, so `stopOp` is a total function and
never waits on a producer. -/
theorem stop_drains_and_disconnects (d : Bool) (s : StopState) :
    (stopOp d s).1.queue = []
    ∧ (stopOp d s).1.nextEv = true
    ∧ (stopOp d s).2 = (d && s.vcPresent && s.vcConnected)
    ∧ (stopOp d s).1.playing = (s.playing && !(s.vcPresent && s.vcConnected))
    ∧ (stopOp d s).1.vcConnected = (s.vcConnected && !(d && s.vcPresent)) := by
  have hq := drainAll_eq_nil s.queue
  cases hd : d <;> cases hp : s.vcPresent <;> cases hc : s.vcConnected <;>
    simp [stopOp, hq, hp, hc]

/-- C8: the idle timer's delay defaults to 900 seconds, and an uncancelled
firing disconnects the voice session if and only if, at fire time, the
engine is idle (`current` empty and queue empty) and a voice client is
connected. -/
theorem idle_fire_iff (c : Option Track) (q : List Track) (p k : Bool) :
    (idleFires c q p k = true ↔ c = none ∧ q = [] ∧ p = true ∧ k = true)
    ∧ idle_disconnect_after = 900 := by
  refine ⟨?_, rfl⟩
  cases c <;> cases q <;> cases p <;> cases k <;> simp [idleFires]

/-- C9: `set_volume(v)` stores exactly `clamp(v, 0.0, 1.5)` (stated here
in the spec's `min`/`max` orientation, which the proof shows equal to the
source's `max(0.0, min(1.5, v))`), produces no observable playback event,
leaves the loop program counter — and hence any already-started stream
with its baked-in gain — untouched, the stored volume defaults to 0.35,
and the volume is read only at stream start: a track dequeued after the
call starts with the encoder filter computed from the newly stored
value. -/
theorem set_volume_clamps (s : MState) (v w : ℚ) (t : Track) (rest : List Track)
    (d : Bool) :
    (step (MAct.setVolume v) s).1 = { s with volume := min (max v 0) (3/2) }
    ∧ (step (MAct.setVolume v) s).1.pc = s.pc
    ∧ (step (MAct.setVolume v) s).2 = []
    ∧ defaultVolume = 35/100
    ∧ (run [MAct.setVolume v, MAct.loopStep goodEnv] (mkIdle (t :: rest) d w)).2
        = [Obs.started t (StreamKind.opus 128 (ffmpeg_volume_filter (clampVolume v)))] := by
  refine ⟨?_, ?_, rfl, by norm_num [defaultVolume], rfl⟩
  · simp [step, clampVolume_eq_min_max]
  · simp [step]

/-- C10: the PCM fallback stream is started with a post-decode gain of
exactly `min(v, 1.0)` for the stored logical volume `v` — never above
unity — while the primary path passes the clamped volume itself (up to
1.5) as an encoder-side FFmpeg filter whenever it is more than `1e-3`
away from unity. -/
theorem pcm_fallback_gain_capped (s : MState) (t : Track) (e : StepEnv) (v : ℚ) :
    pcmGain s.volume = min s.volume 1
    ∧ pcmGain s.volume ≤ 1
    ∧ (e.pcmOk2 = true →
        (probeFallback s t e).2 = [Obs.started t (StreamKind.pcm (min s.volume 1))])
    ∧ (1 + 1/1000 < v → v ≤ 3/2 → ffmpeg_volume_filter v = some v ∧ 1 < v) := by
  refine ⟨rfl, min_le_right _ _, ?_, ?_⟩
  · intro h
    simp [probeFallback, h, pcmGain]
  · intro h1 h2
    have h0 : (0:ℚ) ≤ v := by linarith
    refine ⟨?_, by linarith⟩
    show (if 1/1000 < |max 0 (min (3/2) v) - 1| then some (max 0 (min (3/2) v)) else none)
        = some v
    rw [min_eq_right h2, max_eq_right h0, abs_of_nonneg (by linarith), if_pos (by linarith)]

/-- Witness for C10 at the maximal stored volume 1.5: the fallback gain
evaluates to 1 while the primary filter carries 1.5 itself. -/
theorem pcm_fallback_gain_capped_witness :
    pcmGain (3/2) ≤ 1
    ∧ ffmpeg_volume_filter (3/2) = some (3/2)
    ∧ (1:ℚ) < 3/2
    ∧ (probeFallback (mkIdle [] false (3/2)) trackA envOpusRejected).2
        = [Obs.started trackA (StreamKind.pcm 1)] := by
  have h := pcm_fallback_gain_capped (mkIdle [] false (3/2)) trackA envOpusRejected (3/2)
  have hmin : min ((3:ℚ)/2) 1 = 1 := by
    rw [min_eq_right]; norm_num
  refine ⟨h.2.1, (h.2.2.2 (by norm_num) (by norm_num)).1,
    (h.2.2.2 (by norm_num) (by norm_num)).2, ?_⟩
  have h3 := h.2.2.1 rfl
  rw [show (mkIdle [] false (3/2)).volume = (3/2 : ℚ) from rfl, hmin] at h3
  exact h3

/-- C7: `connect(channel)` returns the existing voice client immediately
(no join, no move) when it is already connected to that channel; otherwise
it issues a move when connected elsewhere and a fresh join when not
connected, then polls readiness 15 times at 200 ms (3 s total) and raises
the handshake-failure error exactly when no poll within the bounded wait
saw the session connected. -/
theorem connect_poll_contract (s : ConnState) (target : Nat) (readyAt : Nat → Bool) :
    (s.vcPresent = true → s.vcChannel = some target → s.vcConnected = true →
        connect s target readyAt = (JoinAction.alreadyConnected, true))
    ∧ (¬(s.vcPresent = true ∧ s.vcChannel = some target ∧ s.vcConnected = true) →
        (connect s target readyAt).1
          = if s.vcPresent && s.vcConnected then JoinAction.move else JoinAction.join)
    ∧ ((connect s target readyAt).2 = false ↔
        ¬(s.vcPresent = true ∧ s.vcChannel = some target ∧ s.vcConnected = true)
        ∧ ∀ i, i < pollCount → readyAt (i + 1) = false)
    ∧ pollCount * pollIntervalMs = 3000 := by
  refine ⟨?_, ?_, ?_, rfl⟩
  · intro h1 h2 h3
    simp [connect, h1, h2, h3]
  · intro h
    have hg : (s.vcPresent && (s.vcChannel == some target) && s.vcConnected) = false := by
      rcases Bool.eq_false_or_eq_true
          (s.vcPresent && (s.vcChannel == some target) && s.vcConnected) with hg | hg
      · exfalso
        simp only [Bool.and_eq_true, beq_iff_eq] at hg
        exact h ⟨hg.1.1, hg.1.2, hg.2⟩
      · exact hg
    cases hA : (s.vcPresent && s.vcConnected) <;> simp [connect, hg, hA]
  · by_cases hgp : s.vcPresent = true ∧ s.vcChannel = some target ∧ s.vcConnected = true
    · obtain ⟨h1, h2, h3⟩ := hgp
      simp [connect, h1, h2, h3]
    · have hg : (s.vcPresent && (s.vcChannel == some target) && s.vcConnected) = false := by
        rcases Bool.eq_false_or_eq_true
            (s.vcPresent && (s.vcChannel == some target) && s.vcConnected) with hg | hg
        · exfalso
          simp only [Bool.and_eq_true, beq_iff_eq] at hg
          exact hgp ⟨hg.1.1, hg.1.2, hg.2⟩
        · exact hg
      cases hA : (s.vcPresent && s.vcConnected) <;>
        simp [connect, hg, hA, hgp, List.any_eq_false, pollCount]

/-- Witness for C7: already connected to channel 5 means an immediate
return with no transport request, regardless of the (here always-failing)
readiness oracle. -/
theorem connect_poll_contract_witness :
    connect ⟨true, some 5, true⟩ 5 (fun _ => false)
      = (JoinAction.alreadyConnected, true) :=
  (connect_poll_contract ⟨true, some 5, true⟩ 5 (fun _ => false)).1 rfl rfl rfl

/-- C2: when the primary Opus start is rejected by the transport, the
loop immediately attempts the PCM fallback for the same track (first
conjunct: the started stream is the PCM one when the fallback start
succeeds, and the track is dropped when it also fails); when a started
stream is probed as no longer playing after the 2-second grace sleep, the
loop again attempts the PCM fallback (second conjunct); and whenever the
fallback also fails to start, the track is dropped with `current`
cleared, the idle timer re-armed and the loop back at its queue-blocked
top — no exception escapes (`step` is total) and the engine does not
terminate: the third conjunct shows the remaining queue still plays in
full after a both-starts-failed drop. -/
theorem primary_fallback_policy (t : Track) (rest : List Track) (s : MState)
    (e : StepEnv) :
    (s.pc = PC.blocked → s.queue = t :: rest → s.playing = false →
      e.connected = true → e.opusOk = false →
        step (MAct.loopStep e) s
          = if e.pcmOk then
              ({ s with queue := rest, current := some t, doneEv := false,
                        playing := true, idleArmed := false,
                        pc := PC.grace t (StreamKind.pcm (pcmGain s.volume)) },
               [Obs.started t (StreamKind.pcm (pcmGain s.volume))])
            else
              ({ s with queue := rest, current := none, doneEv := false,
                        nextEv := false, idleArmed := true, pc := PC.blocked },
               [Obs.droppedStartFailed t]))
    ∧ (∀ strm, s.pc = PC.grace t strm → s.playing = true → e.diedInGrace = true →
        step (MAct.loopStep e) s
          = if e.pcmOk2 then
              ({ s with doneEv := true, playing := true,
                        pc := PC.waiting t (StreamKind.pcm (pcmGain s.volume)) },
               [Obs.started t (StreamKind.pcm (pcmGain s.volume))])
            else
              ({ s with doneEv := true, playing := false, current := none,
                        idleArmed := true, nextEv := false, pc := PC.blocked },
               [Obs.droppedStartFailed t]))
    ∧ (s.pc = PC.blocked → s.queue = t :: rest → s.playing = false →
      e.connected = true → e.opusOk = false → e.pcmOk = false →
        (run (playSchedule rest) (step (MAct.loopStep e) s).1).2
          = rest.flatMap
              (fun u => [Obs.started u (goodStream s.volume), Obs.finishedNormal u])) := by
  refine ⟨?_, ?_, ?_⟩
  · intro h1 h2 h3 h4 h5
    cases hp : e.pcmOk <;> simp [step, h1, h2, h3, h4, h5, hp]
  · intro strm h1 h2 h3
    cases hp : e.pcmOk2 <;> simp [step, probeFallback, h1, h2, h3, hp]
  · intro h1 h2 h3 h4 h5 h6
    have hstate : (step (MAct.loopStep e) s).1 = mkIdle rest false s.volume := by
      simp [step, h1, h2, h3, h4, h5, h6, mkIdle]
    rw [hstate, run_playSchedule]

/-- Witness for C2: with both starts rejected (`envBothFail`), the first
queued track is dropped and the engine goes on to play the second track in
full. -/
theorem primary_fallback_policy_witness :
    step (MAct.loopStep envBothFail) (mkIdle [trackA, trackB] false defaultVolume)
      = (mkIdle [trackB] false defaultVolume, [Obs.droppedStartFailed trackA])
    ∧ (run (playSchedule [trackB])
        (step (MAct.loopStep envBothFail)
          (mkIdle [trackA, trackB] false defaultVolume)).1).2
      = [Obs.started trackB (goodStream defaultVolume), Obs.finishedNormal trackB] := by
  have h := primary_fallback_policy trackA [trackB]
    (mkIdle [trackA, trackB] false defaultVolume) envBothFail
  constructor
  · have h1 := h.1 rfl rfl rfl rfl rfl
    rw [h1]
    rfl
  · have h3 := h.2.2 rfl rfl rfl rfl rfl rfl
    simpa using h3

/-- Counterexample for C3: from the idle configuration (loop parked in
`queue.get()` with the skip event already cleared), calling `skip()` and
then enqueueing `trackA` on a benign transport makes the stale signal win
the end-or-skip race right after the grace period: the track is stopped by
the skip path and never reaches its normal end, contradicting the claim
that a skip raised while idle does not affect the next dequeued track. -/
theorem skip_while_idle_affects_next_track :
    (run skipLeakTrace (mkIdle [] false defaultVolume)).2
      = [Obs.enqueued trackA, Obs.started trackA (goodStream defaultVolume),
         Obs.stoppedBySkip trackA]
    ∧ Obs.finishedNormal trackA ∉ (run skipLeakTrace (mkIdle [] false defaultVolume)).2 := by
  constructor
  · rfl
  · rw [show (run skipLeakTrace (mkIdle [] false defaultVolume)).2
        = [Obs.enqueued trackA, Obs.started trackA (goodStream defaultVolume),
           Obs.stoppedBySkip trackA] from rfl]
    simp

/-- C3 amended: `skip()` while idle raises no exception and emits no
observable event — it only sets the skip signal (and `skip` is a total
function on every engine state) — but because `next_event` is cleared at
the top of the loop iteration *before* the loop suspends in `queue.get()`,
a skip raised while the loop task is parked there persists: for every
track and stored volume, the next dequeued track is stopped by the stale
signal immediately after the 2-second grace period instead of playing to
its normal end. -/
theorem skip_while_idle_leaks_into_next_wait (t : Track) (v : ℚ) (d : Bool)
    (s : MState) :
    (step MAct.skip s).2 = []
    ∧ (step MAct.skip s).1.nextEv = true
    ∧ (run [MAct.skip, MAct.enqueue t, MAct.loopStep goodEnv, MAct.loopStep goodEnv,
            MAct.loopStep goodEnv] (mkIdle [] d v)).2
        = [Obs.enqueued t, Obs.started t (goodStream v), Obs.stoppedBySkip t] := by
  refine ⟨?_, ?_, rfl⟩ <;> cases hp : s.playing <;> simp [step, hp]

end An29
